import Mathlib

set_option maxHeartbeats 1000000

namespace MistralOcr

/-- Model of an OCR image object: `id` and `image_base64` are `none` when the
Python object lacks the corresponding attribute (when `hasattr` is false). -/
structure ImageRef where
  id : Option String
  image_base64 : Option String
deriving DecidableEq

/-- Model of one page of an OCR result. `attr` is an attribute-bearing page
object: an optional `markdown` attribute and an `images` attribute modelled as
a list, the empty list standing for an absent or empty (hence falsy)
attribute. `dict` is a mapping page, of which only the optional "markdown"
key is ever read by the code. -/
inductive PyPage where
  | attr (markdown : Option String) (images : List ImageRef)
  | dict (markdown : Option String)
deriving DecidableEq

/-- Model of the OCR result value handed to the Python functions.
`attrObj` is an object with a `pages` attribute; `dictRes` is a mapping with
key "pages" whose pages are mappings, of which only the optional "markdown"
key is read on this branch (src/ocr_pdf.py lines 146-151); `listRes` is a
bare list of pages; `other` is a value of none of the three shapes (an int,
None, ...), for which `hasattr(result, 'pages')`, `isinstance(result, dict)`
and `isinstance(result, list)` all fail. -/
inductive OcrResult where
  | attrObj (pages : List PyPage)
  | dictRes (pages : List (Option String))
  | listRes (pages : List PyPage)
  | other
deriving DecidableEq

/-- Python's substring test `pat in s`. -/
def pyIn (pat s : String) : Bool :=
  decide (pat.data <:+: s.data)

/-- One scan of Python's `str.replace`: at each position, if `pat` is a
leading segment of the remaining text, emit `rep` and continue after the
match, otherwise emit one character and advance. `fuel` only bounds the
recursion; it is set to the text length at the call site, which suffices
because `pat` is nonempty at every call site, so each step consumes at least
one character. -/
def pyReplaceGo (pat rep : List Char) : Nat → List Char → List Char
  | _, [] => []
  | 0, s => s
  | fuel + 1, c :: rest =>
    if pat.isPrefixOf (c :: rest) then
      rep ++ pyReplaceGo pat rep fuel ((c :: rest).drop pat.length)
    else
      c :: pyReplaceGo pat rep fuel rest

/-- Python's `s.replace(pat, rep)`, replacing all occurrences left to right.
The source only calls it with nonempty `pat`; for empty `pat` we return `s`
unchanged (Python would intersperse `rep`, but no call site passes that). -/
def pyReplace (s pat rep : String) : String :=
  if pat.data.isEmpty then s
  else String.mk (pyReplaceGo pat.data rep.data s.data.length s.data)

/-- Python's `"\n\n---\n\n".join(pages_content)` (src/ocr_pdf.py line 165). -/
def joinPages : List String → String
  | [] => ""
  | p :: ps => ps.foldl (fun acc q => acc ++ "\n\n---\n\n" ++ q) p

/-- The heading `f"## Page {page_num}\n\n"` for the page at zero-based index
`i`, where `page_num = i + 1` (src/ocr_pdf.py line 111). -/
def pageHeader (i : Nat) : String :=
  "## Page " ++ Nat.repr (i + 1) ++ "\n\n"

/-- The fixed placeholder `f"![img-{i}.jpeg](img-{i}.jpeg)"` built from the
zero-based page index `i` (src/ocr_pdf.py line 136). -/
def imgPlaceholder (i : Nat) : String :=
  "![img-" ++ Nat.repr i ++ ".jpeg](img-" ++ Nat.repr i ++ ".jpeg)"

/-- The link target `f"{images_dir}/{img.id}" if images_dir else img.id`
(src/ocr_pdf.py line 122); an empty directory string is falsy in Python. -/
def imgPathOf (images_dir : Option String) (s : String) : String :=
  match images_dir with
  | some dir => if dir = "" then s else dir ++ "/" ++ s
  | none => s

/-- The three-pattern substitution that the attribute branch performs for one
image (src/ocr_pdf.py lines 119-140): when the image object has an `id`
attribute, each of the three fixed patterns that occurs in the current page
content is replaced (all occurrences) by the markdown image link. -/
def substThree (i : Nat) (images_dir : Option String) (content : String) (img : ImageRef) : String :=
  match img.id with
  | none => content
  | some s =>
    let link := "![Image " ++ s ++ "](" ++ imgPathOf images_dir s ++ ")"
    let p1 := "!" ++ s ++ "!"
    let c1 := if pyIn p1 content then pyReplace content p1 link else content
    let p2 := "![" ++ s ++ "](" ++ s ++ ")"
    let c2 := if pyIn p2 c1 then pyReplace c1 p2 link else c1
    let p3 := imgPlaceholder i
    if pyIn p3 c2 then pyReplace c2 p3 link else c2

/-- Content built for the page at index `i` in the attribute-bearing branch
(src/ocr_pdf.py lines 109-142): the heading, then the page's markdown (from
the attribute, or from the "markdown" key when the page is a mapping, or
nothing), then, when `include_images` is set and the page has a truthy
`images` attribute, the per-image substitutions in order. -/
def attrPageContent (include_images : Bool) (images_dir : Option String) (i : Nat) : PyPage → String
  | .attr md imgs =>
    let base := pageHeader i ++ md.getD ""
    if include_images && !imgs.isEmpty then imgs.foldl (substThree i images_dir) base
    else base
  | .dict md => pageHeader i ++ md.getD ""

/-- Content built for the page at index `i` in the bare-list branch
(src/ocr_pdf.py lines 155-162): heading plus markdown, no image handling. -/
def listPageContent (i : Nat) : PyPage → String
  | .attr md _ => pageHeader i ++ md.getD ""
  | .dict md => pageHeader i ++ md.getD ""

/-- Python's `for i, page in enumerate(pages)` loop building one value per
page, with `i` the running index. -/
def enumMap {α β : Type} (f : Nat → α → β) : Nat → List α → List β
  | _, [] => []
  | i, p :: ps => f i p :: enumMap f (i + 1) ps

/-- The `pages_content` list built by extract_markdown_from_result
(src/ocr_pdf.py lines 104-162) before joining: one entry per input page in
input order for each recognized shape, and empty for anything else. -/
def renderPages (result : OcrResult) (include_images : Bool) (images_dir : Option String) : List String :=
  match result with
  | .attrObj pages => enumMap (attrPageContent include_images images_dir) 0 pages
  | .dictRes pages => enumMap (fun i md => pageHeader i ++ md.getD "") 0 pages
  | .listRes pages => enumMap listPageContent 0 pages
  | .other => []

/-- Model of extract_markdown_from_result (src/ocr_pdf.py lines 92-165):
detect the shape, build the per-page contents, and return
`"\n\n" + "\n\n---\n\n".join(pages_content)`. The Python function raises on
no input; the model is total. -/
def extract_markdown_from_result (result : OcrResult) (include_images : Bool) (images_dir : Option String) : String :=
  "\n\n" ++ joinPages (renderPages result include_images images_dir)

/-- Python truthiness of `img.image_base64`: the attribute exists and holds a
nonempty string (src/ocr_pdf.py line 79). -/
def truthyB64 (img : ImageRef) : Bool :=
  img.image_base64.getD "" != ""

/-- Files written by the inner image loop of save_images_from_ocr
(src/ocr_pdf.py lines 78-84), as (file name, base64 payload) pairs in write
order. `none` models the AttributeError raised when an image with truthy
`image_base64` lacks an `id` attribute (line 81); writes performed before an
exception are not modelled. -/
def imgsWrites : List ImageRef → Option (List (String × String))
  | [] => some []
  | img :: rest =>
    if truthyB64 img then
      match img.id with
      | some s => (imgsWrites rest).map (fun ws => (s, img.image_base64.getD "") :: ws)
      | none => none
    else imgsWrites rest

/-- Files written for one page (src/ocr_pdf.py lines 76-84): a mapping page
has no `images` attribute, and a falsy (absent or empty) `images` attribute
skips the loop. -/
def pageWrites : PyPage → Option (List (String × String))
  | .attr _ imgs => if imgs.isEmpty then some [] else imgsWrites imgs
  | .dict _ => some []

/-- Files written over a list of pages, in page order. -/
def pagesWrites : List PyPage → Option (List (String × String))
  | [] => some []
  | p :: ps =>
    match pageWrites p, pagesWrites ps with
    | some w, some ws => some (w ++ ws)
    | _, _ => none

/-- Model of save_images_from_ocr (src/ocr_pdf.py lines 68-89): the function
reads `ocr_response.pages` as an attribute (line 76), so every input that is
not attribute-bearing raises AttributeError, modelled as `none`; on success
the value is the list of files written. -/
def save_images_from_ocr : OcrResult → Option (List (String × String))
  | .attrObj pages => pagesWrites pages
  | _ => none

/-- The counter `image_count` of save_images_from_ocr (src/ocr_pdf.py lines
73-80): incremented exactly once per file written. -/
def save_count (r : OcrResult) : Option Nat :=
  (save_images_from_ocr r).map List.length

/-- The value save_images_from_ocr hands back to its caller: the Python
function body has no return statement, so every non-raising call returns
None. Here `none` models a raised exception, `some none` is Python's None,
and a returned count `n` would be `some (some n)`. -/
def save_retval (r : OcrResult) : Option (Option Nat) :=
  (save_images_from_ocr r).map (fun _ => none)

/-- External effects of ocr_pdf, in program order. -/
inductive OcrStep where
  | constructClient
  | openFile
  | upload
  | getSignedUrl
  | process
deriving DecidableEq

/-- The message of the ValueError raised when the key is missing or empty
(src/ocr_pdf.py line 30, src/main.py line 12). -/
def mistralKeyError : String :=
  "MISTRAL_API_KEY environment variable not set."

/-- All external steps of ocr_pdf in the order the source performs them:
client construction (src/ocr_pdf.py line 33), opening the PDF (line 37),
upload (line 38), URL signing (line 44), OCR processing (line 49). -/
def allOcrSteps : List OcrStep :=
  [.constructClient, .openFile, .upload, .getSignedUrl, .process]

/-- Model of the control flow of ocr_pdf (src/ocr_pdf.py lines 15-65 and
src/main.py lines 9-27): given the value of the MISTRAL_API_KEY environment
variable (`none` when unset), return the external effects performed, in
order, and the error raised, if any. A falsy key (unset or empty string)
raises the ValueError before any other step; otherwise all steps run (their
outcomes are opaque external effects). The optional image saving of
ocr_pdf.py happens after `process`. -/
def ocr_pdf (api_key : Option String) : List OcrStep × Option String :=
  if api_key.getD "" = "" then ([], some mistralKeyError)
  else (allOcrSteps, none)

/-- The image references of a page, as read through the `images` attribute:
a mapping page has none. -/
def pageImagesOf : PyPage → List ImageRef
  | .attr _ imgs => imgs
  | .dict _ => []

/-- Number of pages carried by each recognized shape. -/
def numPages : OcrResult → Nat
  | .attrObj ps => ps.length
  | .dictRes ps => ps.length
  | .listRes ps => ps.length
  | .other => 0

/-- The rendering of the input page at position `i`, per shape: what the
corresponding loop body of extract_markdown_from_result produces for that
page and index. -/
def renderAt (result : OcrResult) (include_images : Bool) (images_dir : Option String) (i : Nat) : Option String :=
  match result with
  | .attrObj ps => (ps.get? i).map (attrPageContent include_images images_dir i)
  | .dictRes ps => (ps.get? i).map (fun md => pageHeader i ++ md.getD "")
  | .listRes ps => (ps.get? i).map (listPageContent i)
  | .other => none

/-- A logical document (one markdown text and one image-reference list per
page) encoded as the attribute-bearing shape. -/
def encodeAttr (c : List (String × List ImageRef)) : OcrResult :=
  .attrObj (c.map (fun p => .attr (some p.1) p.2))

/-- The same logical document encoded as the mapping shape: each page is a
mapping carrying the "markdown" key. -/
def encodeDict (c : List (String × List ImageRef)) : OcrResult :=
  .dictRes (c.map (fun p => some p.1))

/-- The same logical document encoded as the bare-list shape. -/
def encodeList (c : List (String × List ImageRef)) : OcrResult :=
  .listRes (c.map (fun p => .attr (some p.1) p.2))

/-- Length of the enumerated loop output equals the number of pages. -/
theorem enumMap_length {α β : Type} (f : Nat → α → β) :
    ∀ (i : Nat) (l : List α), (enumMap f i l).length = l.length := by
  intro i l
  induction l generalizing i with
  | nil => rfl
  | cons p ps ih => simp [enumMap, ih]

/-- The j-th element of the enumerated loop output is the body applied to the
j-th page with running index i + j. -/
theorem enumMap_get? {α β : Type} (f : Nat → α → β) :
    ∀ (i j : Nat) (l : List α),
      (enumMap f i l).get? j = (l.get? j).map (fun x => f (i + j) x) := by
  intro i j l
  induction l generalizing i j with
  | nil => simp [enumMap]
  | cons p ps ih =>
    cases j with
    | zero => simp [enumMap]
    | succ j =>
      have h : i + 1 + j = i + (j + 1) := by omega
      rw [show enumMap f i (p :: ps) = f i p :: enumMap f (i + 1) ps from rfl,
        List.get?_cons_succ, List.get?_cons_succ, ih (i + 1) j, h]

/-- Enumerating over a mapped list composes the body with the map. -/
theorem enumMap_map {α β γ : Type} (f : Nat → β → γ) (g : α → β) :
    ∀ (i : Nat) (l : List α),
      enumMap f i (l.map g) = enumMap (fun n x => f n (g x)) i l := by
  intro i l
  induction l generalizing i with
  | nil => rfl
  | cons p ps ih => simp [enumMap, ih]

/-- Pointwise equal loop bodies give equal loop outputs. -/
theorem enumMap_congr {α β : Type} {f g : Nat → α → β} (h : ∀ n x, f n x = g n x) :
    ∀ (i : Nat) (l : List α), enumMap f i l = enumMap g i l := by
  intro i l
  induction l generalizing i with
  | nil => rfl
  | cons p ps ih => simp [enumMap, h, ih]

/-- C2: a value of none of the three recognized shapes makes
extract_markdown_from_result return the join of an empty page list with the
leading blank-line pair, i.e. exactly "\n\n", and (the model being total) no
exception is raised. -/
theorem C2_unrecognized_input_empty_document (b : Bool) (d : Option String) :
    extract_markdown_from_result OcrResult.other b d = "\n\n" ++ joinPages [] ∧
    extract_markdown_from_result OcrResult.other b d = "\n\n" :=
  ⟨rfl, rfl⟩

/-- C3: two pages with markdown texts "A" and "B" and include_images off
produce exactly the headed, separator-joined document, in each of the three
input shapes. -/
theorem C3_two_pages_exact_output :
    extract_markdown_from_result (encodeAttr [("A", []), ("B", [])]) false none =
      "\n\n## Page 1\n\nA\n\n---\n\n## Page 2\n\nB" ∧
    extract_markdown_from_result (encodeDict [("A", []), ("B", [])]) false none =
      "\n\n## Page 1\n\nA\n\n---\n\n## Page 2\n\nB" ∧
    extract_markdown_from_result (encodeList [("A", []), ("B", [])]) false none =
      "\n\n## Page 1\n\nA\n\n---\n\n## Page 2\n\nB" := by
  refine ⟨?_, ?_, ?_⟩ <;> decide

/-- C4: for an attribute-bearing result with page text "!img1!" and an image
with id "img1", include_images on and images_dir "images", the output
contains the resolved markdown image link and no longer contains the original
"!img1!" token. -/
theorem C4_image_link_substitution :
    pyIn "![Image img1](images/img1)"
        (extract_markdown_from_result
          (OcrResult.attrObj [PyPage.attr (some "!img1!") [ImageRef.mk (some "img1") none]])
          true (some "images")) = true ∧
    pyIn "!img1!"
        (extract_markdown_from_result
          (OcrResult.attrObj [PyPage.attr (some "!img1!") [ImageRef.mk (some "img1") none]])
          true (some "images")) = false := by
  refine ⟨?_, ?_⟩ <;> decide

/-- C9: save_images_from_ocr reads `.pages` as an attribute, so the mapping
shape and the bare-list shape both raise AttributeError (modelled as `none`)
instead of writing zero images or degrading permissively. -/
theorem C9_attribute_error_on_nonattribute_shapes (ps : List (Option String)) (qs : List PyPage) :
    save_images_from_ocr (OcrResult.dictRes ps) = none ∧
    save_images_from_ocr (OcrResult.listRes qs) = none :=
  ⟨rfl, rfl⟩

/-- C10: on the mapping shape and the bare-list shape the output of
extract_markdown_from_result does not depend on include_images or images_dir:
image substitution happens only in the attribute-bearing branch. -/
theorem C10_options_ignored_on_dict_and_list_shapes (ps : List (Option String))
    (qs : List PyPage) (b b' : Bool) (d d' : Option String) :
    extract_markdown_from_result (OcrResult.dictRes ps) b d =
      extract_markdown_from_result (OcrResult.dictRes ps) b' d' ∧
    extract_markdown_from_result (OcrResult.listRes qs) b d =
      extract_markdown_from_result (OcrResult.listRes qs) b' d' :=
  ⟨rfl, rfl⟩

/-- C7: when the MISTRAL_API_KEY environment variable is unset or empty,
ocr_pdf raises the configuration ValueError with no external step performed
(no client construction, no file open, no upload); when a nonempty key is
present, no such error is raised and all steps run. -/
theorem C7_missing_key_raises_before_io (key : Option String) :
    (key.getD "" = "" → ocr_pdf key = ([], some mistralKeyError)) ∧
    (key.getD "" ≠ "" → ocr_pdf key = (allOcrSteps, none)) := by
  constructor
  · intro h
    simp [ocr_pdf, h]
  · intro h
    simp [ocr_pdf, h]

/-- Witness for C7 at the unset key and at a concrete nonempty key. -/
theorem C7_missing_key_raises_before_io_witness :
    ocr_pdf none = ([], some mistralKeyError) ∧ ocr_pdf (some "key") = (allOcrSteps, none) :=
  ⟨(C7_missing_key_raises_before_io none).1 rfl,
   (C7_missing_key_raises_before_io (some "key")).2 (by decide)⟩

/-- Counterexample to C1 as stated: with include_images on, one page whose
text is "!img1!" and whose image has id "img1" renders differently in the
attribute-bearing shape (which substitutes) and in the mapping shape (which
does not), so the three shapes are not output-identical for all options. -/
theorem C1_counterexample :
    extract_markdown_from_result
        (encodeAttr [("!img1!", [ImageRef.mk (some "img1") none])]) true none ≠
      extract_markdown_from_result
        (encodeDict [("!img1!", [ImageRef.mk (some "img1") none])]) true none := by
  decide

/-- With include_images off, the attribute-bearing encoding of a logical
document renders each page as heading plus text. -/
theorem renderPages_encodeAttr_off (c : List (String × List ImageRef)) (d : Option String) :
    renderPages (encodeAttr c) false d = enumMap (fun n x => pageHeader n ++ x.1) 0 c := by
  show enumMap (attrPageContent false d) 0 (c.map _) = _
  rw [enumMap_map]
  exact enumMap_congr (fun n x => by simp [attrPageContent]) 0 c

/-- The mapping encoding of a logical document renders each page as heading
plus text. -/
theorem renderPages_encodeDict (c : List (String × List ImageRef)) (b : Bool) (d : Option String) :
    renderPages (encodeDict c) b d = enumMap (fun n x => pageHeader n ++ x.1) 0 c := by
  show enumMap _ 0 (c.map _) = _
  rw [enumMap_map]
  exact enumMap_congr (fun n x => by simp) 0 c

/-- The bare-list encoding of a logical document renders each page as heading
plus text. -/
theorem renderPages_encodeList (c : List (String × List ImageRef)) (b : Bool) (d : Option String) :
    renderPages (encodeList c) b d = enumMap (fun n x => pageHeader n ++ x.1) 0 c := by
  show enumMap listPageContent 0 (c.map _) = _
  rw [enumMap_map]
  exact enumMap_congr (fun n x => by simp [listPageContent]) 0 c

/-- C1 (amended): for every logical document, the three accepted input shapes
produce byte-identical markdown when include_images is false; with
include_images on, the attribute-bearing branch may substitute image links
while the other two branches never do (see the counterexample). -/
theorem C1_shape_invariance_without_images (c : List (String × List ImageRef)) (d : Option String) :
    extract_markdown_from_result (encodeAttr c) false d =
      extract_markdown_from_result (encodeDict c) false d ∧
    extract_markdown_from_result (encodeAttr c) false d =
      extract_markdown_from_result (encodeList c) false d := by
  unfold extract_markdown_from_result
  rw [renderPages_encodeAttr_off, renderPages_encodeDict, renderPages_encodeList]
  exact ⟨rfl, rfl⟩

/-- An image list in which no image has truthy base64 data writes nothing. -/
theorem imgsWrites_no_b64 (imgs : List ImageRef)
    (h : ∀ img ∈ imgs, img.image_base64.getD "" = "") :
    imgsWrites imgs = some [] := by
  induction imgs with
  | nil => rfl
  | cons img rest ih =>
    have h1 : truthyB64 img = false := by
      simp [truthyB64, h img (List.mem_cons_self img rest)]
    simp [imgsWrites, h1, ih (fun x hx => h x (List.mem_cons_of_mem _ hx))]

/-- A page list in which no image has truthy base64 data writes nothing. -/
theorem pagesWrites_no_b64 (pages : List PyPage)
    (h : ∀ p ∈ pages, ∀ img ∈ pageImagesOf p, img.image_base64.getD "" = "") :
    pagesWrites pages = some [] := by
  induction pages with
  | nil => rfl
  | cons p ps ih =>
    have h1 : pageWrites p = some [] := by
      cases p with
      | dict md => rfl
      | attr md imgs =>
        by_cases he : imgs.isEmpty
        · simp [pageWrites, he]
        · have := imgsWrites_no_b64 imgs
            (fun img hx => h _ (List.mem_cons_self _ _) img hx)
          simp [pageWrites, he, this]
    have h2 := ih (fun p' hp' => h p' (List.mem_cons_of_mem _ hp'))
    simp [pagesWrites, h1, h2]

/-- Counterexample to C6 as stated: the Python body of save_images_from_ocr
has no return statement, so even on a result with zero images (where it
writes no files) its return value is None, not the count 0. -/
theorem C6_counterexample :
    save_images_from_ocr (OcrResult.attrObj []) = some [] ∧
    save_retval (OcrResult.attrObj []) = some none ∧
    save_retval (OcrResult.attrObj []) ≠ some (some 0) := by
  refine ⟨rfl, rfl, ?_⟩
  decide

/-- C6 (amended): save_images_from_ocr computes the count of images written
in its local counter (and prints it) but returns None; in particular, on an
attribute-bearing result whose pages contain no image with non-empty base64
data, it writes no files, the count is 0, and the returned value is None. -/
theorem C6_count_zero_when_no_base64 (pages : List PyPage)
    (h : ∀ p ∈ pages, ∀ img ∈ pageImagesOf p, img.image_base64.getD "" = "") :
    save_images_from_ocr (OcrResult.attrObj pages) = some [] ∧
    save_count (OcrResult.attrObj pages) = some 0 ∧
    save_retval (OcrResult.attrObj pages) = some none := by
  have h1 : pagesWrites pages = some [] := pagesWrites_no_b64 pages h
  refine ⟨h1, ?_, ?_⟩
  · simp [save_count, save_images_from_ocr, h1]
  · simp [save_retval, save_images_from_ocr, h1]

/-- Witness for C6 (amended) on one page with one image that has an id but no
base64 data. -/
theorem C6_count_zero_when_no_base64_witness :
    (∀ p ∈ [PyPage.attr (some "text") [ImageRef.mk (some "pic1") none]],
      ∀ img ∈ pageImagesOf p, img.image_base64.getD "" = "") ∧
    save_count (OcrResult.attrObj [PyPage.attr (some "text") [ImageRef.mk (some "pic1") none]]) =
      some 0 :=
  ⟨by decide,
   (C6_count_zero_when_no_base64 [PyPage.attr (some "text") [ImageRef.mk (some "pic1") none]]
     (by decide)).2.1⟩

/-- Every character of a digit expansion is in the accumulator or produced by
Nat.digitChar. -/
theorem toDigitsCore_chars (b : Nat) :
    ∀ (fuel n : Nat) (acc : List Char) (c : Char),
      c ∈ Nat.toDigitsCore b fuel n acc → c ∈ acc ∨ ∃ k, c = Nat.digitChar (k % b) := by
  intro fuel
  induction fuel with
  | zero =>
    intro n acc c h
    exact Or.inl h
  | succ fuel ih =>
    intro n acc c h
    rw [Nat.toDigitsCore] at h
    by_cases hz : n / b = 0
    · rw [if_pos hz] at h
      rcases List.mem_cons.mp h with rfl | h'
      · exact Or.inr ⟨n, rfl⟩
      · exact Or.inl h'
    · rw [if_neg hz] at h
      rcases ih (n / b) (Nat.digitChar (n % b) :: acc) c h with h' | h'
      · rcases List.mem_cons.mp h' with rfl | h''
        · exact Or.inr ⟨n, rfl⟩
        · exact Or.inl h''
      · exact Or.inr h'

/-- Nat.digitChar yields no exclamation mark on digits below ten. -/
theorem digitChar_lt_ten_ne_bang : ∀ m, m < 10 → Nat.digitChar m ≠ '!' := by
  decide

/-- The decimal numeral of a natural number contains no exclamation mark. -/
theorem repr_no_bang (n : Nat) : ('!' ) ∉ (Nat.repr n).data := by
  intro h
  have h' : ('!' ) ∈ Nat.toDigitsCore 10 (n + 1) n [] := h
  rcases toDigitsCore_chars 10 (n + 1) n [] _ h' with h'' | ⟨k, hk⟩
  · exact absurd h'' (List.not_mem_nil _)
  · exact digitChar_lt_ten_ne_bang (k % 10) (Nat.mod_lt k (by omega)) hk.symm

/-- The page heading contains no exclamation mark. -/
theorem pageHeader_no_bang (i : Nat) : ('!' ) ∉ (pageHeader i).data := by
  intro h
  simp only [pageHeader, String.data_append, List.mem_append] at h
  rcases h with (h | h) | h
  · exact absurd h (by decide)
  · exact repr_no_bang _ h
  · exact absurd h (by decide)

/-- A pattern whose first character does not occur in the front segment can
only occur in a concatenation if it occurs in the back segment. -/
theorem not_infix_append_of_head_notMem {c : Char} {q h m : List Char}
    (hc : c ∉ h) (hm : ¬ (c :: q) <:+: m) : ¬ (c :: q) <:+: h ++ m := by
  induction h with
  | nil => simpa using hm
  | cons a h ih =>
    intro hinf
    rcases List.infix_cons_iff.mp hinf with hpre | hinf'
    · rcases List.cons_prefix_cons.mp hpre with ⟨rfl, _⟩
      exact hc (List.mem_cons_self _ _)
    · exact ih (fun hx => hc (List.mem_cons_of_mem _ hx)) hinf'

/-- A pattern beginning with an exclamation mark does not pass the Python
substring test against heading-plus-text when the text does not contain it. -/
theorem pyIn_append_false {pat H md : String}
    (hpat : ∃ q, pat.data = ('!' ) :: q) (hc : ('!' ) ∉ H.data)
    (hmd : ¬ pat.data <:+: md.data) :
    pyIn pat (H ++ md) = false := by
  obtain ⟨q, hq⟩ := hpat
  rw [pyIn]
  apply decide_eq_false
  rw [String.data_append, hq]
  exact not_infix_append_of_head_notMem hc (hq ▸ hmd)

/-- Prepending keeps a leading exclamation mark of the left part. -/
theorem head_bang_append {s : String} (h : ∃ q, s.data = ('!' ) :: q) (t : String) :
    ∃ q, (s ++ t).data = ('!' ) :: q := by
  obtain ⟨q, hq⟩ := h
  exact ⟨q ++ t.data, by rw [String.data_append, hq]; rfl⟩

/-- The first substitution pattern `f"!{img.id}!"` starts with '!'. -/
theorem p1_head_bang (s : String) : ∃ q, ("!" ++ s ++ "!").data = ('!' ) :: q :=
  head_bang_append (head_bang_append ⟨[], rfl⟩ s) "!"

/-- The second substitution pattern `f"![{img.id}]({img.id})"` starts with '!'. -/
theorem p2_head_bang (s : String) : ∃ q, ("![" ++ s ++ "](" ++ s ++ ")").data = ('!' ) :: q :=
  head_bang_append (head_bang_append (head_bang_append (head_bang_append ⟨['['], rfl⟩ s) "](") s) ")"

/-- The third substitution pattern (the fixed jpeg placeholder) starts
with '!'. -/
theorem imgPlaceholder_head_bang (i : Nat) : ∃ q, (imgPlaceholder i).data = ('!' ) :: q := by
  unfold imgPlaceholder
  exact head_bang_append (head_bang_append (head_bang_append
    (head_bang_append ⟨"[img-".data, rfl⟩ (Nat.repr i)) ".jpeg](img-") (Nat.repr i)) ".jpeg)"

/-- The id is a segment of the first substitution pattern. -/
theorem id_infix_p1 (s : String) : s.data <:+: ("!" ++ s ++ "!").data := by
  refine ⟨['!'], ['!'], ?_⟩
  rw [String.data_append, String.data_append]

/-- The id is a segment of the second substitution pattern. -/
theorem id_infix_p2 (s : String) : s.data <:+: ("![" ++ s ++ "](" ++ s ++ ")").data := by
  refine ⟨['!', '['], ("](" ++ s ++ ")").data, ?_⟩
  simp only [String.data_append]
  simp [List.append_assoc]

/-- When the image id does not occur in the page's markdown text and the text
does not contain the fixed jpeg placeholder for the page index, the
three-pattern substitution leaves heading-plus-text untouched. -/
theorem substThree_eq_self (i : Nat) (d : Option String) (md : String) (img : ImageRef)
    (h1 : ∀ t, img.id = some t → ¬ t.data <:+: md.data)
    (h3 : ¬ (imgPlaceholder i).data <:+: md.data) :
    substThree i d (pageHeader i ++ md) img = pageHeader i ++ md := by
  cases himg : img.id with
  | none => simp [substThree, himg]
  | some t =>
    have hb := pageHeader_no_bang i
    have hm1 : ¬ ("!" ++ t ++ "!").data <:+: md.data :=
      fun hx => h1 t himg ((id_infix_p1 t).trans hx)
    have hm2 : ¬ ("![" ++ t ++ "](" ++ t ++ ")").data <:+: md.data :=
      fun hx => h1 t himg ((id_infix_p2 t).trans hx)
    have hf1 : pyIn ("!" ++ t ++ "!") (pageHeader i ++ md) = false :=
      pyIn_append_false (p1_head_bang t) hb hm1
    have hf2 : pyIn ("![" ++ t ++ "](" ++ t ++ ")") (pageHeader i ++ md) = false :=
      pyIn_append_false (p2_head_bang t) hb hm2
    have hf3 : pyIn (imgPlaceholder i) (pageHeader i ++ md) = false :=
      pyIn_append_false (imgPlaceholder_head_bang i) hb h3
    simp [substThree, himg, hf1, hf2, hf3]

/-- Folding the substitution over images whose ids are all absent from the
text leaves heading-plus-text untouched. -/
theorem foldl_substThree_eq_self (i : Nat) (d : Option String) (md : String)
    (imgs : List ImageRef)
    (h1 : ∀ img ∈ imgs, ∀ t, img.id = some t → ¬ t.data <:+: md.data)
    (h3 : ¬ (imgPlaceholder i).data <:+: md.data) :
    imgs.foldl (substThree i d) (pageHeader i ++ md) = pageHeader i ++ md := by
  induction imgs with
  | nil => rfl
  | cons img rest ih =>
    rw [List.foldl_cons,
      substThree_eq_self i d md img (fun t ht => h1 img (List.mem_cons_self _ _) t ht) h3]
    exact ih (fun x hx t ht => h1 x (List.mem_cons_of_mem _ hx) t ht)

/-- An image list in which every image has an id writes exactly the images
with truthy base64 data; each such pair appears among the written files. -/
theorem imgsWrites_mem (imgs : List ImageRef) (hall : ∀ x ∈ imgs, x.id.isSome) :
    ∃ ws, imgsWrites imgs = some ws ∧
      ∀ img ∈ imgs, ∀ s b, img.id = some s → img.image_base64 = some b → b ≠ "" →
        (s, b) ∈ ws := by
  induction imgs with
  | nil => exact ⟨[], rfl, by simp⟩
  | cons img rest ih =>
    obtain ⟨ws, hws, hmem⟩ := ih (fun x hx => hall x (List.mem_cons_of_mem _ hx))
    by_cases hb : truthyB64 img
    · obtain ⟨s0, hs0⟩ := Option.isSome_iff_exists.mp (hall img (List.mem_cons_self _ _))
      refine ⟨(s0, img.image_base64.getD "") :: ws, ?_, ?_⟩
      · simp [imgsWrites, hb, hs0, hws]
      · intro x hx s b hs hb64 hbne
        rcases List.mem_cons.mp hx with rfl | hx'
        · have hss : s = s0 := by
            rw [hs] at hs0
            exact Option.some_inj.mp hs0
          have hbb : x.image_base64.getD "" = b := by rw [hb64]; rfl
          rw [hss, ← hbb]
          exact List.mem_cons_self _ _
        · exact List.mem_cons_of_mem _ (hmem x hx' s b hs hb64 hbne)
    · refine ⟨ws, ?_, ?_⟩
      · simp [imgsWrites, hb, hws]
      · intro x hx s b hs hb64 hbne
        rcases List.mem_cons.mp hx with rfl | hx'
        · exfalso
          apply hb
          simp [truthyB64, hb64, hbne]
        · exact hmem x hx' s b hs hb64 hbne

/-- Counterexample to C5 as stated: a page whose markdown text is the fixed
placeholder "![img-0.jpeg](img-0.jpeg)" is rewritten even though the image id
"foo" occurs nowhere in the text, because the third substitution pattern is
built from the page index, not from the id. -/
theorem C5_counterexample :
    pyIn "foo" "![img-0.jpeg](img-0.jpeg)" = false ∧
    extract_markdown_from_result
        (OcrResult.attrObj
          [PyPage.attr (some "![img-0.jpeg](img-0.jpeg)") [ImageRef.mk (some "foo") (some "ZZ")]])
        true none =
      "\n\n## Page 1\n\n![Image foo](foo)" := by
  refine ⟨?_, ?_⟩ <;> decide

/-- C5 (amended): if none of the image ids of an attribute-bearing page occur
in its markdown text and the text also does not contain the fixed placeholder
`![img-i.jpeg](img-i.jpeg)` for the page's zero-based index i, then
extract_markdown_from_result with include_images on renders the page as
heading plus unchanged text; and (provided every image of the page has an id,
so that no earlier image raises) each image with non-empty base64 data is
still written by save_images_from_ocr's inner loop. -/
theorem C5_no_id_occurrence_text_unchanged (pages : List PyPage) (d : Option String)
    (i : Nat) (md : String) (imgs : List ImageRef)
    (hp : pages.get? i = some (PyPage.attr (some md) imgs))
    (h1 : ∀ t ∈ imgs.filterMap ImageRef.id, ¬ t.data <:+: md.data)
    (h3 : ¬ (imgPlaceholder i).data <:+: md.data)
    (hall : ∀ x ∈ imgs, x.id.isSome) :
    (renderPages (OcrResult.attrObj pages) true d).get? i = some (pageHeader i ++ md) ∧
    ∃ ws, imgsWrites imgs = some ws ∧
      ∀ img ∈ imgs, ∀ s b, img.id = some s → img.image_base64 = some b → b ≠ "" →
        (s, b) ∈ ws := by
  constructor
  · have hg : (renderPages (OcrResult.attrObj pages) true d).get? i =
        (pages.get? i).map (fun p => attrPageContent true d (0 + i) p) := by
      exact enumMap_get? (attrPageContent true d) 0 i pages
    have h1' : ∀ img ∈ imgs, ∀ t, img.id = some t → ¬ t.data <:+: md.data :=
      fun img hmem t ht => h1 t (List.mem_filterMap.mpr ⟨img, hmem, ht⟩)
    have hfold := foldl_substThree_eq_self i d md imgs h1' h3
    rw [hg, hp]
    simp only [Option.map_some', Nat.zero_add]
    have hbody : attrPageContent true d i (PyPage.attr (some md) imgs) = pageHeader i ++ md := by
      simp only [attrPageContent, Option.getD_some, Bool.true_and]
      split
      · exact hfold
      · rfl
    rw [hbody]
  · exact imgsWrites_mem imgs hall

/-- Witness for C5 (amended): one page with text "hello" and one image with
id "pic" and base64 payload "QUJD". -/
theorem C5_no_id_occurrence_text_unchanged_witness :
    (¬ "pic".data <:+: "hello".data) ∧
    (renderPages
        (OcrResult.attrObj [PyPage.attr (some "hello") [ImageRef.mk (some "pic") (some "QUJD")]])
        true (some "images")).get? 0 =
      some (pageHeader 0 ++ "hello") :=
  ⟨by decide,
   (C5_no_id_occurrence_text_unchanged
     [PyPage.attr (some "hello") [ImageRef.mk (some "pic") (some "QUJD")]]
     (some "images") 0 "hello" [ImageRef.mk (some "pic") (some "QUJD")]
     rfl (by decide) (by decide) (by decide)).1⟩

/-- Replacement scanning walks over a front segment that does not contain the
head character of the pattern. -/
theorem pyReplaceGo_append {c : Char} (pt rep : List Char) :
    ∀ (h m : List Char) (fuel : Nat), c ∉ h →
      pyReplaceGo (c :: pt) rep (h.length + fuel) (h ++ m) =
        h ++ pyReplaceGo (c :: pt) rep fuel m := by
  intro h
  induction h with
  | nil =>
    intro m fuel _
    simp
  | cons a h' ih =>
    intro m fuel hc
    have ha : (c == a) = false := by
      have hne : c ≠ a := fun e => hc (e ▸ List.mem_cons_self _ _)
      simp [hne]
    have hpre : (c :: pt).isPrefixOf (a :: (h' ++ m)) = false := by
      simp [List.isPrefixOf, ha]
    have hlen : (a :: h').length + fuel = (h'.length + fuel) + 1 := by
      simp only [List.length_cons]
      omega
    rw [List.cons_append, hlen, pyReplaceGo, hpre]
    simp only [Bool.false_eq_true, if_false]
    rw [ih m fuel (fun hx => hc (List.mem_cons_of_mem _ hx)), List.cons_append]

/-- String-level version: replacing a pattern that starts with '!' inside
heading-plus-text only rewrites the text part when the heading is free of
exclamation marks. -/
theorem pyReplace_append (H m pat rep : String)
    (hpat : ∃ q, pat.data = ('!' ) :: q) (hb : ('!' ) ∉ H.data) :
    pyReplace (H ++ m) pat rep = H ++ pyReplace m pat rep := by
  obtain ⟨q, hq⟩ := hpat
  have hne : pat.data.isEmpty = false := by rw [hq]; rfl
  rw [pyReplace, pyReplace, hne]
  simp only [Bool.false_eq_true, if_false]
  rw [hq, String.data_append, List.length_append,
    pyReplaceGo_append q rep.data H.data m.data m.data.length hb]
  apply String.ext
  rw [String.data_append]

/-- The per-image substitution maps heading-plus-text to heading-plus-text
when the heading has no exclamation mark: all three patterns start with one. -/
theorem substThree_append (i : Nat) (d : Option String) {H : String}
    (hb : ('!' ) ∉ H.data) (u : String) (img : ImageRef) :
    ∃ u', substThree i d (H ++ u) img = H ++ u' := by
  cases himg : img.id with
  | none => exact ⟨u, by simp [substThree, himg]⟩
  | some s =>
    have step : ∀ (pk link : String), (∃ q, pk.data = ('!' ) :: q) → ∀ u0 : String,
        ∃ u1, (if pyIn pk (H ++ u0) then pyReplace (H ++ u0) pk link else H ++ u0) = H ++ u1 := by
      intro pk link hpk u0
      by_cases hc : pyIn pk (H ++ u0)
      · exact ⟨pyReplace u0 pk link, by rw [if_pos hc, pyReplace_append H u0 pk link hpk hb]⟩
      · exact ⟨u0, if_neg hc⟩
    obtain ⟨u1, e1⟩ := step ("!" ++ s ++ "!")
      ("![Image " ++ s ++ "](" ++ imgPathOf d s ++ ")") (p1_head_bang s) u
    obtain ⟨u2, e2⟩ := step ("![" ++ s ++ "](" ++ s ++ ")")
      ("![Image " ++ s ++ "](" ++ imgPathOf d s ++ ")") (p2_head_bang s) u1
    obtain ⟨u3, e3⟩ := step (imgPlaceholder i)
      ("![Image " ++ s ++ "](" ++ imgPathOf d s ++ ")") (imgPlaceholder_head_bang i) u2
    refine ⟨u3, ?_⟩
    simp only [substThree, himg]
    rw [e1, e2, e3]

/-- Folding the per-image substitution keeps the heading intact. -/
theorem foldl_substThree_append (i : Nat) (d : Option String) {H : String}
    (hb : ('!' ) ∉ H.data) :
    ∀ (imgs : List ImageRef) (u : String),
      ∃ u', imgs.foldl (substThree i d) (H ++ u) = H ++ u' := by
  intro imgs
  induction imgs with
  | nil => exact fun u => ⟨u, rfl⟩
  | cons img rest ih =>
    intro u
    obtain ⟨u1, e1⟩ := substThree_append i d hb u img
    obtain ⟨u2, e2⟩ := ih u1
    exact ⟨u2, by rw [List.foldl_cons, e1, e2]⟩

/-- Every page content built in the attribute branch starts with the heading
for its index. -/
theorem attrPageContent_header (b : Bool) (d : Option String) (i : Nat) (p : PyPage) :
    ∃ u, attrPageContent b d i p = pageHeader i ++ u := by
  cases p with
  | dict md => exact ⟨md.getD "", rfl⟩
  | attr md imgs =>
    simp only [attrPageContent]
    by_cases hc : (b && !imgs.isEmpty) = true
    · simp only [hc, if_true]
      exact foldl_substThree_append i d (pageHeader_no_bang i) imgs (md.getD "")
    · simp only [hc, if_false]
      exact ⟨md.getD "", rfl⟩

/-- Every page content built in the bare-list branch starts with the heading
for its index. -/
theorem listPageContent_header (i : Nat) (p : PyPage) :
    ∃ u, listPageContent i p = pageHeader i ++ u := by
  cases p with
  | attr md _ => exact ⟨md.getD "", rfl⟩
  | dict md => exact ⟨md.getD "", rfl⟩

/-- C8: for each of the three recognized shapes, the output section list has
exactly one section per input page, the i-th section is the rendering of the
i-th input page, and it starts with the heading numbered i+1 — no page is
dropped, duplicated or reordered. -/
theorem C8_page_order_preserved (r : OcrResult) (b : Bool) (d : Option String)
    (h : r ≠ OcrResult.other) :
    (renderPages r b d).length = numPages r ∧
    (∀ i, (renderPages r b d).get? i = renderAt r b d i) ∧
    (∀ i s, (renderPages r b d).get? i = some s → ∃ u, s = pageHeader i ++ u) := by
  cases r with
  | other => exact absurd rfl h
  | attrObj ps =>
    refine ⟨enumMap_length _ 0 ps, ?_, ?_⟩
    · intro i
      show (enumMap (attrPageContent b d) 0 ps).get? i =
        (ps.get? i).map (attrPageContent b d i)
      rw [enumMap_get? (attrPageContent b d) 0 i ps]
      simp only [Nat.zero_add]
    · intro i s hs
      have hs' : (enumMap (attrPageContent b d) 0 ps).get? i = some s := hs
      rw [enumMap_get? (attrPageContent b d) 0 i ps] at hs'
      cases hp : ps.get? i with
      | none => rw [hp] at hs'; exact absurd hs' (by simp)
      | some p =>
        rw [hp] at hs'
        simp only [Option.map_some', Nat.zero_add, Option.some.injEq] at hs'
        obtain ⟨u, hu⟩ := attrPageContent_header b d i p
        exact ⟨u, by rw [← hs', hu]⟩
  | dictRes ps =>
    refine ⟨enumMap_length _ 0 ps, ?_, ?_⟩
    · intro i
      show (enumMap (fun n md => pageHeader n ++ md.getD "") 0 ps).get? i =
        (ps.get? i).map (fun md => pageHeader i ++ md.getD "")
      rw [enumMap_get? (fun n md => pageHeader n ++ md.getD "") 0 i ps]
      simp only [Nat.zero_add]
    · intro i s hs
      have hs' : (enumMap (fun n md => pageHeader n ++ md.getD "") 0 ps).get? i = some s := hs
      rw [enumMap_get? (fun n md => pageHeader n ++ md.getD "") 0 i ps] at hs'
      cases hp : ps.get? i with
      | none => rw [hp] at hs'; exact absurd hs' (by simp)
      | some md =>
        rw [hp] at hs'
        simp only [Option.map_some', Nat.zero_add, Option.some.injEq] at hs'
        exact ⟨md.getD "", hs'.symm⟩
  | listRes ps =>
    refine ⟨enumMap_length _ 0 ps, ?_, ?_⟩
    · intro i
      show (enumMap listPageContent 0 ps).get? i = (ps.get? i).map (listPageContent i)
      rw [enumMap_get? listPageContent 0 i ps]
      simp only [Nat.zero_add]
    · intro i s hs
      have hs' : (enumMap listPageContent 0 ps).get? i = some s := hs
      rw [enumMap_get? listPageContent 0 i ps] at hs'
      cases hp : ps.get? i with
      | none => rw [hp] at hs'; exact absurd hs' (by simp)
      | some p =>
        rw [hp] at hs'
        simp only [Option.map_some', Nat.zero_add, Option.some.injEq] at hs'
        obtain ⟨u, hu⟩ := listPageContent_header i p
        exact ⟨u, by rw [← hs', hu]⟩

/-- Witness for C8 on a concrete one-page bare-list result. -/
theorem C8_page_order_preserved_witness :
    (OcrResult.listRes [PyPage.dict (some "x")] ≠ OcrResult.other) ∧
    (renderPages (OcrResult.listRes [PyPage.dict (some "x")]) false none).length =
      numPages (OcrResult.listRes [PyPage.dict (some "x")]) :=
  ⟨by decide,
   (C8_page_order_preserved (OcrResult.listRes [PyPage.dict (some "x")]) false none
     (by decide)).1⟩

end MistralOcr
